import Mathlib

/-!
Verification of the desktop organizer (`organize_desktop.py`): a shallow
embedding of its classifier, collision-safe mover, move log, organize and
undo operations, together with theorems settling the specification claims.

Paths are modelled relative to the (resolved) source directory as lists of
components: a top-level file `a.png` is `["a.png"]`, a file inside a
category folder is `["Images", "a.png"]`.  The filesystem is the list of
files (with contents, so that the sidecar log and report can be inspected)
plus the list of directories, both inside the source directory.
-/

namespace OrganizeDesktop

/-- A path relative to the source directory, as a list of components. -/
abbrev FPath := List String

/-- Contents of a file: an opaque data blob (tagged so files can be told
apart), a parsed move log, or a parsed report. -/
inductive Content where
  | data (tag : Nat)
  | logc (moves : List (FPath × FPath)) (lastRun : Option String)
  | reportc (movedCount : Nat) (moved : List (FPath × FPath)) (timestamp : String)
deriving DecidableEq, Repr

/-- A move record `{"from": ..., "to": ...}` from the sidecar log. -/
structure MoveRec where
  fromP : FPath
  toP : FPath
deriving DecidableEq, Repr

/-- The parsed sidecar log: `{"moves": [...], "last_run": ...}`, with
`last_run` possibly absent. -/
structure Log where
  moves : List MoveRec
  lastRun : Option String
deriving DecidableEq, Repr

/-- The state of the world the program acts on: whether the source path
exists and is a directory, and (when it does) the contents of the source
directory. -/
structure FS where
  files : List (FPath × Content)
  dirs : List FPath
deriving DecidableEq, Repr

structure World where
  sourceOk : Bool
  fs : FS
deriving DecidableEq, Repr

/-- Python `Path.exists()`: true when a file or a directory is at `p`. -/
def FS.existsp (fs : FS) (p : FPath) : Bool :=
  fs.files.any (fun e => e.1 = p) || fs.dirs.contains p

/-- Read the content of the file at `p`, if a file is there. -/
def FS.read (fs : FS) (p : FPath) : Option Content :=
  (fs.files.find? (fun e => e.1 = p)).map (·.2)

/-- Python `Path.write_text`: create or overwrite the file at `p`. -/
def FS.write (fs : FS) (p : FPath) (c : Content) : FS :=
  { fs with files := (p, c) :: fs.files.filter (fun e => decide (e.1 ≠ p)) }

/-- Python `mkdir(exist_ok=True)`: create the directory if absent. -/
def FS.mkdir (fs : FS) (p : FPath) : FS :=
  if fs.dirs.contains p then fs else { fs with dirs := p :: fs.dirs }

/-- The sidecar file name, `LOG_FILE = ".organize_log.json"`. -/
def LOG_FILE : String := ".organize_log.json"

/-- The static `CATEGORIES` table, in its source (insertion) order. -/
def CATEGORIES : List (String × List String) :=
  [("Images", [".png", ".jpg", ".jpeg", ".gif", ".bmp", ".svg", ".webp"]),
   ("Documents", [".pdf", ".docx", ".doc", ".xlsx", ".xls", ".pptx", ".txt", ".md"]),
   ("Archives", [".zip", ".tar", ".gz", ".rar", ".7z"]),
   ("Code", [".py", ".js", ".ts", ".java", ".c", ".cpp", ".h", ".html", ".css", ".json"]),
   ("Audio", [".mp3", ".wav", ".flac", ".aac"]),
   ("Video", [".mp4", ".mkv", ".mov", ".avi"])]

/-- Model of Python `str.lower()` (per-character lowercasing). -/
def pyLower (s : String) : String := ⟨s.data.map Char.toLower⟩

/-- Model of Python `str.upper()` (per-character uppercasing). -/
def pyUpper (s : String) : String := ⟨s.data.map Char.toUpper⟩

/-- Classifier `category_for(ext)`: lowercase the extension, return the first category
whose set contains it, else `"Others"`. -/
def category_for (ext : String) : String :=
  match CATEGORIES.find? (fun c => c.2.contains (pyLower ext)) with
  | some c => c.1
  | none => "Others"

/-- Index of the last `'.'` in a list of characters, if any
(`str.rfind('.')` when the character occurs). -/
def lastDot (cs : List Char) : Option Nat :=
  ((List.range cs.length).filter (fun i => decide (cs.get? i = some '.'))).getLast?

/-- Model of the `pathlib` split of a file name into `(stem, suffix)`: the suffix is
`name[i:]` for the last dot index `i` when `0 < i < len(name) - 1`,
otherwise empty. -/
def splitExt (name : String) : String × String :=
  match lastDot name.data with
  | some i =>
      if 0 < i ∧ i < name.data.length - 1 then
        (⟨name.data.take i⟩, ⟨name.data.drop i⟩)
      else (name, "")
  | none => (name, "")

/-- Python `Path.suffix` of a one-component file name. -/
def pySuffix (name : String) : String := (splitExt name).2

/-- Python `Path.stem` of a one-component file name. -/
def pyStem (name : String) : String := (splitExt name).1

/-- Model of `dest.with_name(f"{stem}_{ts}{suf}")`: the timestamp-disambiguated
name used by `safe_move` on collision. -/
def tsName (name ts : String) : String :=
  pyStem name ++ "_" ++ ts ++ pySuffix name

/-- Apply `tsName` to the last component of a path (`with_name`). -/
def tsPath (p : FPath) (ts : String) : FPath :=
  p.dropLast ++ [tsName (p.getLastD "") ts]

/-- Mover `safe_move(src, dest)`: if the destination exists, disambiguate it
with the timestamp (single attempt); then perform the move and return the
path actually used. -/
def safe_move (ts : String) (src dest : FPath) (fs : FS) : FPath × FS :=
  let dest := if fs.existsp dest then tsPath dest ts else dest
  let c := (fs.read src).getD (Content.data 0)
  (dest,
   { fs with
     files := (dest, c) ::
       fs.files.filter (fun e => decide (e.1 ≠ src) && decide (e.1 ≠ dest)) })

/-- Loader `load_log(target_dir)`: parse the sidecar file if present, else a fresh
empty log; `none` models a fatal parse failure on malformed content.  On a
missing source directory the sidecar does not exist, so the fresh empty log
is returned. -/
def load_log (w : World) : Option Log :=
  if w.sourceOk then
    match w.fs.read [LOG_FILE] with
    | some (Content.logc ms lr) => some { moves := ms.map (fun m => ⟨m.1, m.2⟩), lastRun := lr }
    | some _ => none
    | none => some { moves := [], lastRun := none }
  else some { moves := [], lastRun := none }

/-- Writer `save_log(target_dir, data)`: serialize and overwrite the sidecar. -/
def save_log (fs : FS) (l : Log) : FS :=
  fs.write [LOG_FILE] (Content.logc (l.moves.map (fun m => (m.fromP, m.toP))) l.lastRun)

/-- Helper `ensure_folder(path, name)`: create the category folder under the
source directory if absent, and return it. -/
def ensure_folder (fs : FS) (name : String) : FPath × FS :=
  ([name], fs.mkdir [name])

/-- Console output of the program, one constructor per `print` call. -/
inductive Event where
  | sourceMissing
  | plan (dry : Bool) (name cat : String)
  | undoMove (src dst : FPath)
  | undoSkip (src : FPath)
  | noUndo
  | undoDone
deriving DecidableEq, Repr

/-- The top-level entries of the source directory in listing order, each
with its `is_dir()` status (`source.iterdir()`). -/
def FS.topLevel (fs : FS) : List (String × Bool) :=
  fs.files.filterMap (fun e => match e.1 with
    | [n] => some (n, false)
    | _ => none) ++
  fs.dirs.filterMap (fun p => match p with
    | [n] => some (n, true)
    | _ => none)

/-- One iteration of the organize loop: skip the log file and directories;
classify, ensure the category folder, and (in execute mode) move the file
and record the move. -/
def organizeStep (dry_run : Bool) (ts : String)
    (acc : FS × List MoveRec × List Event) (item : String × Bool) :
    FS × List MoveRec × List Event :=
  if item.1 = LOG_FILE then acc
  else if item.2 then acc
  else
    let cat := category_for (pySuffix item.1)
    let fs := (ensure_folder acc.1 cat).2
    let dest := (ensure_folder acc.1 cat).1 ++ [item.1]
    let evs := acc.2.2 ++ [Event.plan dry_run item.1 cat]
    if dry_run then (fs, acc.2.1, evs)
    else
      ((safe_move ts [item.1] dest fs).2,
       acc.2.1 ++ [⟨[item.1], (safe_move ts [item.1] dest fs).1⟩], evs)

/-- Operation `organize(source, dry_run)`: validate the source, load the log,
process every top-level entry, then (in execute mode with at least one
move) persist the extended log and write the report.  Returns the success
flag, the resulting world and the console output; `none` models a fatal
parse failure on a malformed sidecar log. -/
def organize (dry_run : Bool) (ts utc : String) (w : World) :
    Option (Bool × World × List Event) :=
  if !w.sourceOk then some (false, w, [Event.sourceMissing])
  else
    match load_log w with
    | none => none
    | some log =>
      let acc := (w.fs.topLevel).foldl (organizeStep dry_run ts) (w.fs, [], [])
      if !dry_run && !acc.2.1.isEmpty then
        let log' : Log := { moves := log.moves ++ acc.2.1, lastRun := some (utc ++ "Z") }
        let fs2 := (save_log acc.1 log').write ["report.json"]
          (Content.reportc acc.2.1.length
            (acc.2.1.map (fun m => (m.fromP, m.toP))) (utc ++ "Z"))
        some (true, { w with fs := fs2 }, acc.2.2)
      else some (true, { w with fs := acc.1 }, acc.2.2)

/-- Model of `dst.parent.mkdir(parents=True, exist_ok=True)`: create every missing
ancestor directory of `p` (`p` itself is the restoration target's parent). -/
def mkdirAncestors (fs : FS) (p : FPath) : FS :=
  ((List.range p.length).map (fun i => p.take (i + 1))).foldl FS.mkdir fs

/-- One iteration of the undo loop: if the logged destination still
exists, recreate the original parent and move the file back; otherwise
skip with a warning. -/
def undoStep (ts : String) (acc : FS × List Event) (mv : MoveRec) :
    FS × List Event :=
  if acc.1.existsp mv.toP then
    ((safe_move ts mv.toP mv.fromP (mkdirAncestors acc.1 mv.fromP.dropLast)).2,
     acc.2 ++ [Event.undoMove mv.toP mv.fromP])
  else
    (acc.1, acc.2 ++ [Event.undoSkip mv.toP])

/-- Operation `undo(source)`: load the log; if it records no moves report so and
stop; otherwise process the records in reverse order and finally clear
the persisted log.  `none` models a fatal parse failure. -/
def undo (ts : String) (w : World) : Option (World × List Event) :=
  match load_log w with
  | none => none
  | some log =>
    if log.moves.isEmpty then some (w, [Event.noUndo])
    else
      let acc := (log.moves.reverse).foldl (undoStep ts) (w.fs, [])
      some ({ w with fs := acc.1.write [LOG_FILE] (Content.logc [] none) },
            acc.2 ++ [Event.undoDone])

/-- The logged destination a per-record undo event is about (`mv["to"]`),
for both the performed-move and the skipped-with-warning lines. -/
def evSrc : Event → Option FPath
  | Event.undoMove s _ => some s
  | Event.undoSkip s => some s
  | _ => none

/-- A flat directory holding `a.png`, `b.txs` and `c.pdf` (the round-trip
scenario of the spec). -/
def exampleDir : World :=
  { sourceOk := true,
    fs := { files := [(["a.png"], Content.data 1), (["b.txs"], Content.data 2),
                      (["c.pdf"], Content.data 3)],
            dirs := [] } }

/-- A directory holding a single image file, used to probe simulate mode. -/
def dryDir : World :=
  { sourceOk := true,
    fs := { files := [(["a.png"], Content.data 1)], dirs := [] } }

/-- A directory holding only a leftover `report.json` from an earlier run. -/
def reportDir : World :=
  { sourceOk := true,
    fs := { files := [(["report.json"], Content.reportc 0 [] "T0")], dirs := [] } }

/-- Three move records in chronological (append) order. -/
def threeMoves : List MoveRec :=
  [⟨["a.png"], ["Images", "a.png"]⟩,
   ⟨["b.txs"], ["Others", "b.txs"]⟩,
   ⟨["c.pdf"], ["Documents", "c.pdf"]⟩]

/-- A directory whose sidecar log records `threeMoves`, where the second
logged destination has been deleted externally (so undo must skip it). -/
def undoDir : World :=
  { sourceOk := true,
    fs := { files := [([LOG_FILE],
                       Content.logc (threeMoves.map (fun m => (m.fromP, m.toP)))
                         (some "U1Z")),
                      (["Images", "a.png"], Content.data 1),
                      (["Documents", "c.pdf"], Content.data 3)],
            dirs := [["Images"], ["Others"], ["Documents"]] } }

/-- A directory where `Images/photo.png` already exists and a new
top-level `photo.png` is about to be moved into `Images/`. -/
def collisionDir : FS :=
  { files := [(["photo.png"], Content.data 1),
              (["Images", "photo.png"], Content.data 2)],
    dirs := [["Images"]] }

/-- The world produced by previewing `dryDir`: same files, plus the
`Images` folder created by the loop. -/
def previewedDryDir : World :=
  { sourceOk := true,
    fs := { files := [(["a.png"], Content.data 1)], dirs := [["Images"]] } }

/-- The world produced by organizing `dryDir` in execute mode: the image
moved into `Images/`, plus the written sidecar log and report. -/
def organizedDryDir : World :=
  { sourceOk := true,
    fs := { files := [(["report.json"],
                       Content.reportc 1 [(["a.png"], ["Images", "a.png"])] "UZ"),
                      ([LOG_FILE],
                       Content.logc [(["a.png"], ["Images", "a.png"])] (some "UZ")),
                      (["Images", "a.png"], Content.data 1)],
            dirs := [["Images"]] } }

end OrganizeDesktop

namespace OrganizeDesktop

/-- Characters outside the basic-latin upper-case range are fixed by
`Char.toLower`. -/
theorem toLower_fix (d : Char) (hd : ¬(d.toNat ≥ 65 ∧ d.toNat ≤ 90)) :
    d.toLower = d := by
  show (if d.toNat ≥ 65 ∧ d.toNat ≤ 90 then Char.ofNat (d.toNat + 32) else d) = d
  exact if_neg hd

/-- Lowercasing a basic-latin letter is idempotent. -/
theorem char_toLower_idem (c : Char) : c.toLower.toLower = c.toLower := by
  by_cases h : c.toNat ≥ 65 ∧ c.toNat ≤ 90
  · have h1 : c.toLower = Char.ofNat (c.toNat + 32) := by
      show (if c.toNat ≥ 65 ∧ c.toNat ≤ 90 then Char.ofNat (c.toNat + 32) else c) =
        Char.ofNat (c.toNat + 32)
      exact if_pos h
    have hval : (c.toNat + 32).isValidChar := Or.inl (by omega)
    have hv : (Char.ofNat (c.toNat + 32)).toNat = c.toNat + 32 := by
      rw [Char.ofNat, dif_pos hval]
      rfl
    rw [h1]
    apply toLower_fix
    rw [hv]
    omega
  · rw [toLower_fix c h]
    exact toLower_fix c h

/-- Model-level idempotence of Python `str.lower()`. -/
theorem pyLower_idem (s : String) : pyLower (pyLower s) = pyLower s := by
  unfold pyLower
  refine congrArg String.mk ?_
  show (s.data.map Char.toLower).map Char.toLower = s.data.map Char.toLower
  rw [List.map_map]
  exact List.map_congr_left (fun a _ => char_toLower_idem a)

/-- C6: Classifier contract — `category_for` is total (it is a Lean
function), its result depends only on the lowercased extension (it agrees
with itself on the lowercased input), every extension of every category —
also in upper case — maps to that category's name, and every extension
whose lowercase form is in no category's set maps to the fallback
`"Others"`. -/
theorem category_for_contract :
    (∀ ext : String, category_for ext = category_for (pyLower ext)) ∧
    (∀ c ∈ CATEGORIES, ∀ e ∈ c.2,
      category_for e = c.1 ∧ category_for (pyUpper e) = c.1) ∧
    (∀ ext : String, (∀ c ∈ CATEGORIES, pyLower ext ∉ c.2) →
      category_for ext = "Others") := by
  refine ⟨?_, by decide, ?_⟩
  · intro ext
    unfold category_for
    simp only [pyLower_idem]
  · intro ext h
    have hfind : CATEGORIES.find? (fun c => c.2.contains (pyLower ext)) = none := by
      rw [List.find?_eq_none]
      intro c hc hcon
      exact h c hc (List.elem_iff.mp hcon)
    unfold category_for
    rw [hfind]

/-- Witness for C6: concrete instances of each conjunct — a known
extension in upper case, the same extension lowercased, and an unknown
extension falling back to `"Others"`. -/
theorem category_for_contract_witness :
    category_for ".PNG" = category_for (pyLower ".PNG") ∧
    (("Images", [".png", ".jpg", ".jpeg", ".gif", ".bmp", ".svg", ".webp"]) ∈
        CATEGORIES ∧ ".png" ∈ [".png", ".jpg", ".jpeg", ".gif", ".bmp", ".svg", ".webp"]) ∧
    category_for ".png" = "Images" ∧ category_for (pyUpper ".png") = "Images" ∧
    (∀ c ∈ CATEGORIES, pyLower ".xyz" ∉ c.2) ∧ category_for ".xyz" = "Others" := by
  refine ⟨category_for_contract.1 ".PNG", ⟨by decide, by decide⟩, ?_, ?_,
    by decide, category_for_contract.2.2 ".xyz" (by decide)⟩
  · exact (category_for_contract.2.1
      ("Images", [".png", ".jpg", ".jpeg", ".gif", ".bmp", ".svg", ".webp"])
      (by decide) ".png" (by decide)).1
  · exact (category_for_contract.2.1
      ("Images", [".png", ".jpg", ".jpeg", ".gif", ".bmp", ".svg", ".webp"])
      (by decide) ".png" (by decide)).2

/-- Unfolding equation for one undo iteration on an explicit accumulator. -/
theorem undoStep_eq (ts : String) (fs : FS) (evs : List Event) (mv : MoveRec) :
    undoStep ts (fs, evs) mv =
      if fs.existsp mv.toP then
        ((safe_move ts mv.toP mv.fromP (mkdirAncestors fs mv.fromP.dropLast)).2,
         evs ++ [Event.undoMove mv.toP mv.fromP])
      else (fs, evs ++ [Event.undoSkip mv.toP]) := rfl

/-- Each undo iteration appends exactly one per-record console line, about
that record's logged destination, so the lines mention the records'
destinations in processing order. -/
theorem foldl_undoStep_evSrc (ts : String) (ms : List MoveRec) :
    ∀ (fs : FS) (evs : List Event),
      ((ms.foldl (undoStep ts) (fs, evs)).2).filterMap evSrc =
        evs.filterMap evSrc ++ ms.map (fun m => m.toP) := by
  induction ms with
  | nil => intro fs evs; simp
  | cons mv ms ih =>
    intro fs evs
    rw [List.foldl_cons, undoStep_eq]
    by_cases h : fs.existsp mv.toP = true
    · rw [if_pos h, ih]
      simp [evSrc]
    · rw [if_neg h, ih]
      simp [evSrc]

/-- Finding an entry among the survivors of a filter that keeps every
matching entry finds the same entry as in the original list. -/
theorem find?_filter_keep {α : Type} (l : List α) (f p : α → Bool)
    (h : ∀ a, p a = true → f a = true) : (l.filter f).find? p = l.find? p := by
  induction l with
  | nil => rfl
  | cons a l ih =>
    rw [List.filter_cons]
    by_cases hp : p a = true
    · rw [if_pos (h a hp), List.find?_cons_of_pos _ hp, List.find?_cons_of_pos _ hp]
    · by_cases hf : f a = true
      · rw [if_pos hf, List.find?_cons_of_neg _ hp, List.find?_cons_of_neg _ hp, ih]
      · rw [if_neg hf, List.find?_cons_of_neg _ hp, ih]

/-- Reading back the path just written yields the written content. -/
theorem read_write_self (fs : FS) (p : FPath) (c : Content) :
    (fs.write p c).read p = some c := by
  unfold FS.read FS.write
  rw [List.find?_cons_of_pos _ (by simp)]
  rfl

/-- Writing one path leaves every other path's content unchanged. -/
theorem read_write_ne (fs : FS) (p q : FPath) (c : Content) (h : q ≠ p) :
    (fs.write p c).read q = fs.read q := by
  unfold FS.read FS.write
  rw [List.find?_cons_of_neg _ (by simp; exact fun hh => absurd hh.symm h)]
  rw [find?_filter_keep]
  intro a ha
  simp at ha ⊢
  rw [ha]
  exact h

/-- Unfolding the cleared-log branch of undo: with a parsed, nonempty log
the run is the reverse fold followed by the unconditional clear. -/
theorem undo_nonempty_eq (ts : String) (w : World) (log : Log)
    (hload : load_log w = some log) (hne : log.moves ≠ []) :
    undo ts w =
      some ({ w with fs := FS.write ((log.moves.reverse).foldl (undoStep ts) (w.fs, [])).1 [LOG_FILE] (Content.logc [] none) }, ((log.moves.reverse).foldl (undoStep ts) (w.fs, [])).2 ++ [Event.undoDone]) := by
  simp [undo, hload, List.isEmpty_eq_false.mpr hne]

/-- C4: LIFO undo order — with a parsed log whose move sequence is
nonempty, undo succeeds and its per-record console lines (one per record,
whether performed or skipped) mention exactly the logged destinations in
the strict reverse of the logged order. -/
theorem undo_lifo_order (ts : String) (w : World) (log : Log)
    (hload : load_log w = some log) (hne : log.moves ≠ []) :
    ∃ w' evs, undo ts w = some (w', evs) ∧
      evs.filterMap evSrc = (log.moves.reverse).map (fun m => m.toP) := by
  refine ⟨_, _, undo_nonempty_eq ts w log hload hne, ?_⟩
  rw [List.filterMap_append, foldl_undoStep_evSrc]
  simp [evSrc]

/-- Witness for C4 at `undoDir`, whose log records three moves. -/
theorem undo_lifo_order_witness :
    load_log undoDir = some { moves := threeMoves, lastRun := some "U1Z" } ∧
    ({ moves := threeMoves, lastRun := some "U1Z" } : Log).moves ≠ [] ∧
    (∃ w' evs, undo "TS" undoDir = some (w', evs) ∧
      evs.filterMap evSrc =
        (({ moves := threeMoves, lastRun := some "U1Z" } : Log).moves.reverse).map
          (fun m => m.toP)) :=
  ⟨by decide, by decide,
   undo_lifo_order "TS" undoDir { moves := threeMoves, lastRun := some "U1Z" }
     (by decide) (by decide)⟩

/-- C8: Undo with missing targets — a record whose logged destination no
longer exists is skipped with a warning and leaves the filesystem
untouched at that step; processing still covers every record (one console
line per record, in reverse order), and after the full pass the persisted
log is unconditionally cleared to an empty move sequence. -/
theorem undo_skips_missing_and_clears (ts : String) (w : World) (log : Log)
    (hload : load_log w = some log) (hne : log.moves ≠ []) :
    (∀ (fs : FS) (evs : List Event) (mv : MoveRec), fs.existsp mv.toP = false →
      undoStep ts (fs, evs) mv = (fs, evs ++ [Event.undoSkip mv.toP])) ∧
    ∃ w' evs, undo ts w = some (w', evs) ∧
      evs.filterMap evSrc = (log.moves.reverse).map (fun m => m.toP) ∧
      w'.fs.read [LOG_FILE] = some (Content.logc [] none) := by
  constructor
  · intro fs evs mv h
    rw [undoStep_eq, if_neg (by simp [h])]
  · refine ⟨_, _, undo_nonempty_eq ts w log hload hne, ?_, read_write_self _ _ _⟩
    rw [List.filterMap_append, foldl_undoStep_evSrc]
    simp [evSrc]

/-- Witness for C8 at `undoDir`, where the second logged destination is
missing. -/
theorem undo_skips_missing_and_clears_witness :
    load_log undoDir = some { moves := threeMoves, lastRun := some "U1Z" } ∧
    ({ moves := threeMoves, lastRun := some "U1Z" } : Log).moves ≠ [] ∧
    ((∀ (fs : FS) (evs : List Event) (mv : MoveRec), fs.existsp mv.toP = false →
        undoStep "TS" (fs, evs) mv = (fs, evs ++ [Event.undoSkip mv.toP])) ∧
      ∃ w' evs, undo "TS" undoDir = some (w', evs) ∧
        evs.filterMap evSrc =
          (({ moves := threeMoves, lastRun := some "U1Z" } : Log).moves.reverse).map
            (fun m => m.toP) ∧
        w'.fs.read [LOG_FILE] = some (Content.logc [] none)) :=
  ⟨by decide, by decide,
   undo_skips_missing_and_clears "TS" undoDir
     { moves := threeMoves, lastRun := some "U1Z" } (by decide) (by decide)⟩

/-- C1: Round-trip — organizing the flat directory `{a.png, b.txs, c.pdf}`
in execute mode and then undoing restores each file at its original
top-level path with its original content; afterwards every file in the
directory is top-level (the category subfolders hold no files), and the
only paths holding files are the three originals plus the sidecar log and
the report. -/
theorem organize_undo_round_trip :
    ∃ ok w1 evs1 w2 evs2,
      organize false "TS1" "U1" exampleDir = some (ok, w1, evs1) ∧
      undo "TS2" w1 = some (w2, evs2) ∧
      ok = true ∧
      w2.fs.read ["a.png"] = some (Content.data 1) ∧
      w2.fs.read ["b.txs"] = some (Content.data 2) ∧
      w2.fs.read ["c.pdf"] = some (Content.data 3) ∧
      (∀ e ∈ w2.fs.files, e.1.length = 1) ∧
      (∀ e ∈ w2.fs.files,
        e.1 = ["a.png"] ∨ e.1 = ["b.txs"] ∨ e.1 = ["c.pdf"] ∨
        e.1 = [LOG_FILE] ∨ e.1 = ["report.json"]) := by
  refine ⟨true,
    { sourceOk := true,
      fs := { files :=
                [(["report.json"],
                  Content.reportc 3
                    [(["a.png"], ["Images", "a.png"]), (["b.txs"], ["Others", "b.txs"]),
                     (["c.pdf"], ["Documents", "c.pdf"])] "U1Z"),
                 ([LOG_FILE],
                  Content.logc
                    [(["a.png"], ["Images", "a.png"]), (["b.txs"], ["Others", "b.txs"]),
                     (["c.pdf"], ["Documents", "c.pdf"])] (some "U1Z")),
                 (["Documents", "c.pdf"], Content.data 3),
                 (["Others", "b.txs"], Content.data 2),
                 (["Images", "a.png"], Content.data 1)],
              dirs := [["Documents"], ["Others"], ["Images"]] } },
    [Event.plan false "a.png" "Images", Event.plan false "b.txs" "Others",
     Event.plan false "c.pdf" "Documents"],
    { sourceOk := true,
      fs := { files :=
                [([LOG_FILE], Content.logc [] none),
                 (["a.png"], Content.data 1),
                 (["b.txs"], Content.data 2),
                 (["c.pdf"], Content.data 3),
                 (["report.json"],
                  Content.reportc 3
                    [(["a.png"], ["Images", "a.png"]), (["b.txs"], ["Others", "b.txs"]),
                     (["c.pdf"], ["Documents", "c.pdf"])] "U1Z")],
              dirs := [["Documents"], ["Others"], ["Images"]] } },
    [Event.undoMove ["Documents", "c.pdf"] ["c.pdf"],
     Event.undoMove ["Others", "b.txs"] ["b.txs"],
     Event.undoMove ["Images", "a.png"] ["a.png"], Event.undoDone],
    ?_, ?_, ?_, ?_, ?_, ?_, ?_, ?_⟩ <;> decide

/-- C9: Empty-log undo — when the loaded log records no moves, undo only
reports that there is nothing to undo and returns the world unchanged (in
particular the sidecar is not rewritten). -/
theorem undo_empty_log_noop (ts : String) (w : World) (log : Log)
    (hload : load_log w = some log) (hempty : log.moves = []) :
    undo ts w = some (w, [Event.noUndo]) := by
  simp [undo, hload, hempty]

/-- Witness for C9 at a concrete world with no sidecar log. -/
theorem undo_empty_log_noop_witness :
    load_log dryDir = some { moves := [], lastRun := none } ∧
    ({ moves := [], lastRun := none } : Log).moves = [] ∧
    undo "TS" dryDir = some (dryDir, [Event.noUndo]) :=
  ⟨by decide, rfl,
   undo_empty_log_noop "TS" dryDir { moves := [], lastRun := none } (by decide) rfl⟩

/-- C7: Invalid source — when the source path does not exist or is not a
directory, organize reports the problem, returns a false completion flag,
and leaves the world untouched (no log load or write, no folder creation,
no moves). -/
theorem organize_invalid_source (dry : Bool) (ts utc : String) (w : World)
    (h : w.sourceOk = false) :
    organize dry ts utc w = some (false, w, [Event.sourceMissing]) := by
  simp [organize, h]

/-- Witness for C7 at a concrete missing-source world. -/
theorem organize_invalid_source_witness :
    ({ sourceOk := false, fs := { files := [], dirs := [] } } : World).sourceOk = false ∧
    organize true "TS" "U" { sourceOk := false, fs := { files := [], dirs := [] } } =
      some (false, { sourceOk := false, fs := { files := [], dirs := [] } },
            [Event.sourceMissing]) :=
  ⟨rfl, organize_invalid_source true "TS" "U" _ rfl⟩

/-- C2 counterexample: simulate mode is not mutation-free — previewing a
directory holding `a.png` creates the `Images` subfolder (the category
folder is ensured before the dry-run check), so the resulting directory
list differs from the original empty one. -/
theorem dry_run_creates_folders :
    (organize true "TS" "U" dryDir).map (fun r => r.2.1.fs.dirs) =
      some [["Images"]] ∧ dryDir.fs.dirs = [] := by
  constructor <;> decide

/-- C3 counterexample: the report file is not excluded from organizing —
running organize on a directory holding only a leftover `report.json`
classifies it by its `.json` extension and moves it to
`Code/report.json`, where its old content is found afterwards. -/
theorem report_file_is_moved :
    (organize false "TS" "U" reportDir).map
        (fun r => r.2.1.fs.read ["Code", "report.json"]) =
      some (some (Content.reportc 0 [] "T0")) := by
  decide

/-- Creating a directory never changes the stored files. -/
theorem files_mkdir (fs : FS) (p : FPath) : (fs.mkdir p).files = fs.files := by
  unfold FS.mkdir
  split <;> rfl

/-- Creating a directory never changes any file's readable content. -/
theorem read_mkdir (fs : FS) (p q : FPath) : (fs.mkdir p).read q = fs.read q := by
  unfold FS.read
  rw [files_mkdir]

/-- Creating a chain of ancestor directories never changes the files. -/
theorem read_mkdirAncestors (fs : FS) (p q : FPath) :
    (mkdirAncestors fs p).read q = fs.read q := by
  unfold mkdirAncestors
  generalize (List.range p.length).map (fun i => p.take (i + 1)) = l
  induction l generalizing fs with
  | nil => rfl
  | cons a l ih => rw [List.foldl_cons, ih, read_mkdir]

/-- Unfolding equation for the collision-safe mover. -/
theorem safe_move_eq (ts : String) (src dest : FPath) (fs : FS) :
    safe_move ts src dest fs =
      ((if fs.existsp dest then tsPath dest ts else dest),
       FS.mk
         (((if fs.existsp dest then tsPath dest ts else dest),
           (fs.read src).getD (Content.data 0)) ::
          fs.files.filter (fun e => decide (e.1 ≠ src) &&
            decide (e.1 ≠ (if fs.existsp dest then tsPath dest ts else dest))))
         fs.dirs) := rfl

/-- Moving a file changes no path other than its source and the realized
destination. -/
theorem read_safe_move (ts : String) (src dest p : FPath) (fs : FS)
    (h1 : p ≠ src) (h2 : p ≠ dest) (h3 : p ≠ tsPath dest ts) :
    ((safe_move ts src dest fs).2).read p = fs.read p := by
  rw [safe_move_eq]
  set d := (if fs.existsp dest then tsPath dest ts else dest) with hd
  have hpd : p ≠ d := by
    rw [hd]
    split
    · exact h3
    · exact h2
  unfold FS.read
  rw [List.find?_cons_of_neg _ (by simp; exact fun hh => hpd hh.symm)]
  rw [find?_filter_keep]
  intro a ha
  simp at ha ⊢
  rw [ha]
  exact ⟨h1, hpd⟩

/-- The organize loop body never changes the sidecar log file's content:
the log-named entry is skipped outright, and every move involves a
top-level source with a different name and a depth-two destination. -/
theorem organizeStep_read_log (dry : Bool) (ts : String)
    (acc : FS × List MoveRec × List Event) (it : String × Bool) :
    ((organizeStep dry ts acc it).1).read [LOG_FILE] = acc.1.read [LOG_FILE] := by
  unfold organizeStep
  by_cases h1 : it.1 = LOG_FILE
  · rw [if_pos h1]
  · rw [if_neg h1]
    by_cases h2 : it.2 = true
    · rw [if_pos h2]
    · rw [if_neg h2]
      by_cases hd : dry = true
      · rw [if_pos hd]
        show ((ensure_folder acc.1 (category_for (pySuffix it.1))).2).read [LOG_FILE] =
          acc.1.read [LOG_FILE]
        exact read_mkdir _ _ _
      · rw [if_neg hd]
        show ((safe_move ts [it.1]
            ((ensure_folder acc.1 (category_for (pySuffix it.1))).1 ++ [it.1])
            ((ensure_folder acc.1 (category_for (pySuffix it.1))).2)).2).read [LOG_FILE] =
          acc.1.read [LOG_FILE]
        rw [read_safe_move]
        · exact read_mkdir _ _ _
        · intro hh
          simp at hh
          exact h1 hh.symm
        · show [LOG_FILE] ≠ [category_for (pySuffix it.1), it.1]
          simp
        · show [LOG_FILE] ≠ tsPath [category_for (pySuffix it.1), it.1] ts
          show [LOG_FILE] ≠ [category_for (pySuffix it.1), tsName it.1 ts]
          simp

/-- The whole organize loop never changes the sidecar log file's content. -/
theorem foldl_organizeStep_read_log (dry : Bool) (ts : String)
    (items : List (String × Bool)) :
    ∀ acc, ((items.foldl (organizeStep dry ts) acc).1).read [LOG_FILE] =
      acc.1.read [LOG_FILE] := by
  induction items with
  | nil => intro acc; rfl
  | cons it items ih =>
    intro acc
    rw [List.foldl_cons, ih, organizeStep_read_log]

/-- The organize loop body in simulate mode never changes the files. -/
theorem organizeStep_dry_files (ts : String) (acc : FS × List MoveRec × List Event)
    (it : String × Bool) : ((organizeStep true ts acc it).1).files = acc.1.files := by
  unfold organizeStep
  by_cases h1 : it.1 = LOG_FILE
  · rw [if_pos h1]
  · rw [if_neg h1]
    by_cases h2 : it.2 = true
    · rw [if_pos h2]
    · rw [if_neg h2]
      show ((ensure_folder acc.1 (category_for (pySuffix it.1))).2).files = acc.1.files
      exact files_mkdir _ _

/-- The whole organize loop in simulate mode never changes the files. -/
theorem foldl_organizeStep_dry_files (ts : String) (items : List (String × Bool)) :
    ∀ acc, ((items.foldl (organizeStep true ts) acc).1).files = acc.1.files := by
  induction items with
  | nil => intro acc; rfl
  | cons it items ih =>
    intro acc
    rw [List.foldl_cons, ih, organizeStep_dry_files]

/-- C2 amended: simulate mode performs no file moves and no log or report
write — the stored files (hence also the persisted Move Log) of every
terminating simulate run are exactly those of the input world; only
directory creation can occur. -/
theorem dry_run_moves_no_files (ts utc : String) (w : World)
    (r : Bool × World × List Event) (h : organize true ts utc w = some r) :
    r.2.1.fs.files = w.fs.files := by
  unfold organize at h
  split at h
  · injection h with h'
    subst h'
    rfl
  · split at h
    · exact Option.noConfusion h
    · simp only [Bool.not_true, Bool.false_and, Bool.false_eq_true, if_false] at h
      injection h with h'
      subst h'
      exact foldl_organizeStep_dry_files ts _ _

/-- Witness for C2's amended theorem: previewing `dryDir` terminates and
leaves its files untouched (while creating the `Images` folder). -/
theorem dry_run_moves_no_files_witness :
    organize true "TS" "U" dryDir =
      some (true, previewedDryDir, [Event.plan true "a.png" "Images"]) ∧
    (true, previewedDryDir,
      [Event.plan true "a.png" "Images"]).2.1.fs.files = dryDir.fs.files :=
  ⟨by decide, dry_run_moves_no_files "TS" "U" dryDir _ (by decide)⟩

/-- C3 amended: the organize loop skips exactly the sidecar log file — an
entry named `LOG_FILE` leaves the loop state untouched — while an entry
named `report.json` is not excluded: it is classified by its `.json`
extension into `Code` and processed like any other file. -/
theorem log_file_excluded_report_not :
    (∀ (dry : Bool) (ts : String) (acc : FS × List MoveRec × List Event) (b : Bool),
      organizeStep dry ts acc (LOG_FILE, b) = acc) ∧
    (∀ (dry : Bool) (ts : String) (fs : FS) (moved : List MoveRec) (evs : List Event),
      (organizeStep dry ts (fs, moved, evs) ("report.json", false)).2.2 =
        evs ++ [Event.plan dry "report.json" "Code"]) := by
  constructor
  · intro dry ts acc b
    rfl
  · intro dry ts fs moved evs
    cases dry <;> rfl

/-- C10 amended: a log persisted by an execute-mode organize run has both
the moves array and a `last_run` timestamp (when the run rewrites the
sidecar at all), while the log persisted by undo's clear has an empty
moves array and no `last_run`. -/
theorem persisted_log_shapes :
    (∀ (ts utc : String) (w : World) (r : Bool × World × List Event),
      organize false ts utc w = some r →
      r.2.1.fs.read [LOG_FILE] = w.fs.read [LOG_FILE] ∨
      ∃ ms, r.2.1.fs.read [LOG_FILE] = some (Content.logc ms (some (utc ++ "Z")))) ∧
    (∀ (ts : String) (w : World) (log : Log), load_log w = some log → log.moves ≠ [] →
      ∃ w' evs, undo ts w = some (w', evs) ∧
        w'.fs.read [LOG_FILE] = some (Content.logc [] none)) := by
  constructor
  · intro ts utc w r h
    unfold organize at h
    split at h
    · injection h with h'
      subst h'
      left
      rfl
    · split at h
      · exact Option.noConfusion h
      · rename_i lg heq
        set acc := (w.fs.topLevel).foldl (organizeStep false ts) (w.fs, [], []) with hacc
        simp only [Bool.not_false, Bool.true_and] at h
        cases hm : acc.2.1.isEmpty with
        | true =>
          rw [hm] at h
          simp only [Bool.not_true, Bool.false_eq_true, if_false] at h
          injection h with h'
          subst h'
          left
          show acc.1.read [LOG_FILE] = w.fs.read [LOG_FILE]
          rw [hacc]
          exact foldl_organizeStep_read_log false ts _ _
        | false =>
          rw [hm] at h
          simp only [Bool.not_false, if_true] at h
          injection h with h'
          subst h'
          right
          refine ⟨(lg.moves ++ acc.2.1).map (fun m => (m.fromP, m.toP)), ?_⟩
          show ((save_log acc.1
              { moves := lg.moves ++ acc.2.1, lastRun := some (utc ++ "Z") }).write
              ["report.json"]
              (Content.reportc acc.2.1.length
                (acc.2.1.map (fun m => (m.fromP, m.toP))) (utc ++ "Z"))).read [LOG_FILE] =
            some (Content.logc ((lg.moves ++ acc.2.1).map (fun m => (m.fromP, m.toP)))
              (some (utc ++ "Z")))
          rw [read_write_ne _ _ _ _ (by decide)]
          unfold save_log
          exact read_write_self _ _ _
  · intro ts w log hload hne
    refine ⟨_, _, undo_nonempty_eq ts w log hload hne, read_write_self _ _ _⟩

/-- Witness for C10's amended theorem: an execute run on `dryDir` and an
undo run on `undoDir`, with the hypotheses discharged concretely. -/
theorem persisted_log_shapes_witness :
    (organize false "TS" "U" dryDir =
      some (true, organizedDryDir, [Event.plan false "a.png" "Images"]) ∧
      ((true, organizedDryDir,
          [Event.plan false "a.png" "Images"]).2.1.fs.read [LOG_FILE] =
          dryDir.fs.read [LOG_FILE] ∨
        ∃ ms, (true, organizedDryDir,
          [Event.plan false "a.png" "Images"]).2.1.fs.read [LOG_FILE] =
          some (Content.logc ms (some ("U" ++ "Z"))))) ∧
    (load_log undoDir = some { moves := threeMoves, lastRun := some "U1Z" } ∧
      ({ moves := threeMoves, lastRun := some "U1Z" } : Log).moves ≠ [] ∧
      ∃ w' evs, undo "TS" undoDir = some (w', evs) ∧
        w'.fs.read [LOG_FILE] = some (Content.logc [] none)) :=
  ⟨⟨by decide, persisted_log_shapes.1 "TS" "U" dryDir _ (by decide)⟩,
   ⟨by decide, by decide,
    persisted_log_shapes.2 "TS" undoDir { moves := threeMoves, lastRun := some "U1Z" }
      (by decide) (by decide)⟩⟩

/-- Splitting a name at its extension and re-concatenating restores the
name. -/
theorem splitExt_append (n : String) : (splitExt n).1 ++ (splitExt n).2 = n := by
  cases h : lastDot n.data with
  | none =>
    have he : splitExt n = (n, "") := by
      unfold splitExt
      rw [h]
    rw [he]
    simp
  | some i =>
    by_cases hc : 0 < i ∧ i < n.data.length - 1
    · have he : splitExt n =
          ((⟨n.data.take i⟩ : String), (⟨n.data.drop i⟩ : String)) := by
        unfold splitExt
        rw [h]
        exact if_pos hc
      rw [he]
      have hmk : (⟨n.data.take i⟩ : String) ++ (⟨n.data.drop i⟩ : String) =
          ⟨n.data.take i ++ n.data.drop i⟩ := rfl
      show (⟨n.data.take i⟩ : String) ++ (⟨n.data.drop i⟩ : String) = n
      rw [hmk, List.take_append_drop]
    · have he : splitExt n = (n, "") := by
        unfold splitExt
        rw [h]
        exact if_neg hc
      rw [he]
      simp

/-- The disambiguated name is longer than the original by the timestamp
plus the underscore. -/
theorem tsName_length (n ts : String) :
    (tsName n ts).length = n.length + ts.length + 1 := by
  have h2 : (pyStem n).length + (pySuffix n).length = n.length := by
    rw [← String.length_append]
    unfold pyStem pySuffix
    rw [splitExt_append]
  unfold tsName
  rw [String.length_append, String.length_append, String.length_append]
  have h3 : ("_" : String).length = 1 := rfl
  rw [h3]
  omega

/-- The disambiguated name never equals the original name. -/
theorem tsName_ne (n ts : String) : tsName n ts ≠ n := by
  intro h
  have hl := congrArg String.length h
  rw [tsName_length] at hl
  omega

/-- The disambiguated path never equals the original destination path. -/
theorem tsPath_ne (p : FPath) (ts : String) : tsPath p ts ≠ p := by
  intro h
  cases p with
  | nil => simp [tsPath] at h
  | cons a l =>
    unfold tsPath at h
    have h1 := congrArg List.getLast? h
    rw [List.getLast?_concat] at h1
    have hx := List.getLast?_eq_getLast (a :: l) (by simp)
    rw [hx] at h1
    injection h1 with h2
    have h4 : (a :: l).getLastD "" = (a :: l).getLast (by simp) := by
      rw [List.getLastD_eq_getLast?, hx]
      rfl
    rw [h4] at h2
    exact tsName_ne _ ts h2

/-- C5: Collision-safe move — from a readable source: on collision the
returned path is the timestamp-disambiguated destination (used without
re-checking, so this holds even if that name is itself taken), the moved
file appears there with its original content, and every pre-existing
entry at the destination is untouched; without collision the file is
moved to exactly the requested destination, which is returned, and all
unrelated entries are untouched. -/
theorem safe_move_collision_spec (ts : String) (src dest : FPath) (fs : FS)
    (c : Content) (hsrc : fs.read src = some c) (hne : src ≠ dest) :
    (fs.existsp dest = true →
      (safe_move ts src dest fs).1 = tsPath dest ts ∧
      (tsPath dest ts, c) ∈ (safe_move ts src dest fs).2.files ∧
      (∀ c', (dest, c') ∈ fs.files → (dest, c') ∈ (safe_move ts src dest fs).2.files)) ∧
    (fs.existsp dest = false →
      (safe_move ts src dest fs).1 = dest ∧
      (dest, c) ∈ (safe_move ts src dest fs).2.files ∧
      (∀ (q : FPath) (c' : Content), (q, c') ∈ fs.files → q ≠ src → q ≠ dest →
        (q, c') ∈ (safe_move ts src dest fs).2.files)) := by
  have hc : (fs.read src).getD (Content.data 0) = c := by rw [hsrc]; rfl
  constructor
  · intro hex
    rw [safe_move_eq, if_pos hex]
    refine ⟨rfl, ?_, ?_⟩
    · rw [← hc]
      exact List.mem_cons_self _ _
    · intro c' hmem
      apply List.mem_cons_of_mem
      rw [List.mem_filter]
      refine ⟨hmem, ?_⟩
      simp only [Bool.and_eq_true, decide_eq_true_eq]
      exact ⟨Ne.symm hne, fun hh => tsPath_ne dest ts hh.symm⟩
  · intro hex
    rw [safe_move_eq, if_neg (by simp [hex])]
    refine ⟨rfl, ?_, ?_⟩
    · rw [← hc]
      exact List.mem_cons_self _ _
    · intro q c' hmem hq1 hq2
      apply List.mem_cons_of_mem
      rw [List.mem_filter]
      refine ⟨hmem, ?_⟩
      simp only [Bool.and_eq_true, decide_eq_true_eq]
      exact ⟨hq1, hq2⟩

/-- Witness for C5 at `collisionDir`, moving `photo.png` onto an occupied
`Images/photo.png`. -/
theorem safe_move_collision_spec_witness :
    collisionDir.read ["photo.png"] = some (Content.data 1) ∧
    (["photo.png"] : FPath) ≠ ["Images", "photo.png"] ∧
    ((collisionDir.existsp ["Images", "photo.png"] = true →
      (safe_move "20250101000000" ["photo.png"] ["Images", "photo.png"] collisionDir).1 =
        tsPath ["Images", "photo.png"] "20250101000000" ∧
      (tsPath ["Images", "photo.png"] "20250101000000", Content.data 1) ∈
        (safe_move "20250101000000" ["photo.png"] ["Images", "photo.png"]
          collisionDir).2.files ∧
      (∀ c', (["Images", "photo.png"], c') ∈ collisionDir.files →
        (["Images", "photo.png"], c') ∈
          (safe_move "20250101000000" ["photo.png"] ["Images", "photo.png"]
            collisionDir).2.files)) ∧
    (collisionDir.existsp ["Images", "photo.png"] = false →
      (safe_move "20250101000000" ["photo.png"] ["Images", "photo.png"] collisionDir).1 =
        ["Images", "photo.png"] ∧
      (["Images", "photo.png"], Content.data 1) ∈
        (safe_move "20250101000000" ["photo.png"] ["Images", "photo.png"]
          collisionDir).2.files ∧
      (∀ (q : FPath) (c' : Content), (q, c') ∈ collisionDir.files → q ≠ ["photo.png"] →
        q ≠ ["Images", "photo.png"] →
        (q, c') ∈
          (safe_move "20250101000000" ["photo.png"] ["Images", "photo.png"]
            collisionDir).2.files))) :=
  ⟨by decide, by decide,
   safe_move_collision_spec "20250101000000" ["photo.png"] ["Images", "photo.png"]
     collisionDir (Content.data 1) (by decide) (by decide)⟩

/-- C10 counterexample: the log persisted by undo's clear is missing
`last_run` — undoing `undoDir` leaves the sidecar holding a JSON object
with an empty `moves` array and no `last_run` field at all. -/
theorem undo_clear_omits_last_run :
    (undo "TS" undoDir).map (fun r => r.1.fs.read [LOG_FILE]) =
      some (some (Content.logc [] none)) := by
  decide

end OrganizeDesktop
